import Mathlib

/-!
Verification of the ColourPicker repository core logic.

Shallow embedding of:
- color naming (src/color_utils.py: init_color_dict, closest_colour, get_colour_name),
- quantization (src/wheel_generator.py: quantize_array),
- hex conversion (src/color_utils.py: rgb_to_hex, hex_to_rgb),
- the gradient engine (src/gradient_logic.py: curve_t, calculate_gradient_colors),
- the palette export color loop and file lines (src/export_palette.py: export_palette).

Python machine integers are embedded as ℤ (arbitrary precision in Python, so no
modular wrap is needed); Python floats are embedded as exact real numbers ℝ for
the gradient pipeline (the float operator ** becomes Real.rpow) and as exact
rationals ℚ for the quantizer.  The memoization caches (COLOR_CACHE) only store
values previously computed by the very same functions, so the cached and
uncached semantics coincide and the embedding is cache-free.
-/

/-- RGB triple as the Python tuples of ints produced by the code. -/
abbrev RGB := ℤ × ℤ × ℤ

/-- The fixed color table of init_color_dict (src/color_utils.py lines 12-157),
as an association list in its Python dict insertion order. -/
def colourDict : List (String × RGB) :=
  [("aliceblue", (240, 248, 255)), ("antiquewhite", (250, 235, 210)),
   ("aqua", (0, 255, 255)), ("aquamarine", (127, 255, 212)),
   ("azure", (240, 255, 255)), ("beige", (245, 245, 220)),
   ("bisque", (255, 228, 196)), ("black", (0, 0, 0)),
   ("blanchedalmond", (255, 235, 205)), ("blue", (0, 0, 255)),
   ("blueviolet", (138, 43, 226)), ("brown", (165, 42, 42)),
   ("burlywood", (222, 184, 135)), ("cadetblue", (95, 158, 160)),
   ("chartreuse", (127, 255, 0)), ("chocolate", (210, 105, 30)),
   ("coral", (255, 127, 80)), ("cornflowerblue", (100, 149, 237)),
   ("cornsilk", (255, 248, 220)), ("crimson", (220, 20, 60)),
   ("cyan", (0, 255, 255)), ("darkblue", (0, 0, 139)),
   ("darkcyan", (0, 139, 139)), ("darkgoldenrod", (184, 134, 11)),
   ("darkgray", (169, 169, 169)), ("darkgreen", (0, 100, 0)),
   ("darkkhaki", (189, 183, 107)), ("darkmagenta", (139, 0, 139)),
   ("darkolivegreen", (85, 107, 47)), ("darkorange", (255, 140, 0)),
   ("darkorchid", (153, 50, 204)), ("darkred", (139, 0, 0)),
   ("darksalmon", (233, 150, 122)), ("darkseagreen", (143, 188, 143)),
   ("darkslateblue", (72, 61, 139)), ("darkslategray", (47, 79, 79)),
   ("darkturquoise", (0, 206, 209)), ("darkviolet", (148, 0, 211)),
   ("deeppink", (255, 20, 147)), ("deepskyblue", (0, 191, 255)),
   ("dimgray", (105, 105, 105)), ("dodgerblue", (30, 144, 255)),
   ("firebrick", (178, 34, 34)), ("floralwhite", (255, 250, 240)),
   ("forestgreen", (34, 139, 34)), ("fuchsia", (255, 0, 255)),
   ("gainsboro", (220, 220, 220)), ("ghostwhite", (248, 248, 255)),
   ("gold", (255, 215, 0)), ("goldenrod", (218, 165, 32)),
   ("gray", (128, 128, 128)), ("green", (0, 128, 0)),
   ("greenyellow", (173, 255, 47)), ("honeydew", (240, 255, 240)),
   ("hotpink", (255, 105, 180)), ("indianred", (205, 92, 92)),
   ("indigo", (75, 0, 130)), ("ivory", (255, 255, 240)),
   ("khaki", (240, 230, 140)), ("lavender", (230, 230, 250)),
   ("lavenderblush", (255, 240, 245)), ("lawngreen", (124, 252, 0)),
   ("lemonchiffon", (255, 250, 205)), ("lightblue", (173, 216, 230)),
   ("lightcoral", (240, 128, 128)), ("lightcyan", (224, 255, 255)),
   ("lightgoldenrodyellow", (250, 250, 210)), ("lightgray", (211, 211, 211)),
   ("lightgreen", (144, 238, 144)), ("lightpink", (255, 182, 193)),
   ("lightsalmon", (255, 160, 122)), ("lightseagreen", (32, 178, 170)),
   ("lightskyblue", (135, 206, 250)), ("lightslategray", (119, 136, 153)),
   ("lightsteelblue", (176, 196, 222)), ("lightyellow", (255, 255, 224)),
   ("lime", (0, 255, 0)), ("limegreen", (50, 205, 50)),
   ("linen", (250, 240, 230)), ("magenta", (255, 0, 255)),
   ("maroon", (128, 0, 0)), ("mediumaquamarine", (102, 205, 170)),
   ("mediumblue", (0, 0, 205)), ("mediumorchid", (186, 85, 211)),
   ("mediumpurple", (147, 112, 219)), ("mediumseagreen", (60, 179, 113)),
   ("mediumslateblue", (123, 104, 238)), ("mediumspringgreen", (0, 250, 154)),
   ("mediumturquoise", (72, 209, 204)), ("mediumvioletred", (199, 21, 133)),
   ("midnightblue", (25, 25, 112)), ("mintcream", (245, 255, 250)),
   ("mistyrose", (255, 228, 225)), ("moccasin", (255, 228, 181)),
   ("navajowhite", (255, 222, 173)), ("navy", (0, 0, 128)),
   ("oldlace", (253, 245, 230)), ("olive", (128, 128, 0)),
   ("olivedrab", (107, 142, 35)), ("orange", (255, 165, 0)),
   ("orangered", (255, 69, 0)), ("orchid", (218, 112, 214)),
   ("palegoldenrod", (238, 232, 170)), ("palegreen", (152, 251, 152)),
   ("paleturquoise", (175, 238, 238)), ("palevioletred", (219, 112, 147)),
   ("papayawhip", (255, 239, 213)), ("peachpuff", (255, 218, 185)),
   ("peru", (205, 133, 63)), ("pink", (255, 192, 203)),
   ("plum", (221, 160, 221)), ("powderblue", (176, 224, 230)),
   ("purple", (128, 0, 128)), ("rebeccapurple", (102, 51, 153)),
   ("red", (255, 0, 0)), ("rosybrown", (188, 143, 143)),
   ("royalblue", (65, 105, 225)), ("saddlebrown", (139, 69, 19)),
   ("salmon", (250, 128, 114)), ("sandybrown", (244, 164, 96)),
   ("seagreen", (46, 139, 87)), ("seashell", (255, 245, 238)),
   ("sienna", (160, 82, 45)), ("silver", (192, 192, 192)),
   ("skyblue", (135, 206, 235)), ("slateblue", (106, 90, 205)),
   ("slategray", (112, 128, 144)), ("snow", (255, 250, 250)),
   ("springgreen", (0, 255, 127)), ("steelblue", (70, 130, 180)),
   ("tan", (210, 180, 140)), ("teal", (0, 128, 128)),
   ("thistle", (216, 191, 216)), ("tomato", (255, 99, 71)),
   ("turquoise", (64, 224, 208)), ("violet", (238, 130, 238)),
   ("wheat", (245, 222, 179)), ("white", (255, 255, 255)),
   ("whitesmoke", (245, 245, 245)), ("yellow", (255, 255, 0)),
   ("yellowgreen", (154, 205, 50))]

/-- Squared Euclidean RGB distance, as computed inside closest_colour. -/
def sqDist (c q : RGB) : ℤ :=
  (c.1 - q.1) ^ 2 + (c.2.1 - q.2.1) ^ 2 + (c.2.2 - q.2.2) ^ 2

/-- The scan loop of closest_colour (src/color_utils.py lines 175-184).
The accumulator none models min_dist = float inf before the first update; the
branch d = 0 models the break after an exact match. -/
def closest_scan (q : RGB) : List (String × RGB) → Option ℤ → String → String
  | [], _, best => best
  | (nm, c) :: rest, minD, best =>
    let d := sqDist c q
    match minD with
    | none => if d = 0 then nm else closest_scan q rest (some d) nm
    | some m =>
      if d < m then
        (if d = 0 then nm else closest_scan q rest (some d) nm)
      else closest_scan q rest minD best

/-- closest_colour (src/color_utils.py), cache-free semantics. -/
def closest_colour (q : RGB) : String :=
  closest_scan q colourDict none "unknown"

/-- The exact-match scan of get_colour_name (src/color_utils.py lines 204-207):
first entry whose RGB equals the query, in insertion order. -/
def exact_scan (q : RGB) : List (String × RGB) → Option String
  | [] => none
  | (nm, c) :: rest => if c = q then some nm else exact_scan q rest

/-- get_colour_name (src/color_utils.py lines 189-209), cache-free semantics. -/
def get_colour_name (q : RGB) : String :=
  match exact_scan q colourDict with
  | some nm => nm
  | none => closest_colour q

/-- Spec-side nearest entry: the first entry minimizing the squared Euclidean
distance, ties broken by the first minimal entry in iteration order (the
entry of the earlier position wins at equal distance). -/
def firstMin (q : RGB) : List (String × RGB) → Option (String × ℤ)
  | [] => none
  | (nm, c) :: rest =>
    match firstMin q rest with
    | none => some (nm, sqDist c q)
    | some (nm2, d2) =>
      if sqDist c q ≤ d2 then some (nm, sqDist c q) else some (nm2, d2)

/-- Spec-side name resolution, following the words of the spec: return the
first exact match in insertion order when one exists, otherwise the name of
the entry minimizing the squared distance (first minimal wins). -/
def nameOfSpec (q : RGB) : String :=
  match exact_scan q colourDict with
  | some nm => nm
  | none =>
    match firstMin q colourDict with
    | none => "unknown"
    | some (nm, _) => nm

theorem sqDist_nonneg (c q : RGB) : 0 ≤ sqDist c q := by
  unfold sqDist; positivity

theorem firstMin_nonneg (q : RGB) :
    ∀ l nm d, firstMin q l = some (nm, d) → 0 ≤ d := by
  intro l
  induction l with
  | nil => intro nm d h; simp [firstMin] at h
  | cons e rest ih =>
    intro nm d h
    obtain ⟨enm, ec⟩ := e
    simp only [firstMin] at h
    rcases hrest : firstMin q rest with _ | ⟨nm2, d2⟩ <;> rw [hrest] at h
    · simp only [Option.some.injEq, Prod.mk.injEq] at h
      rw [← h.2]; exact sqDist_nonneg _ _
    · by_cases hle : sqDist ec q ≤ d2 <;> simp only [hle, if_true, if_false,
        Option.some.injEq, Prod.mk.injEq] at h
      · rw [← h.2]; exact sqDist_nonneg _ _
      · rw [← h.2]; exact ih nm2 d2 hrest

/-- Champion update: the result of continuing a scan that currently holds a
champion at distance m named nm, given the best entry of the remaining list. -/
def champ (nm : String) (m : ℤ) : Option (String × ℤ) → String
  | none => nm
  | some (nm2, d2) => if d2 < m then nm2 else nm

/-- Name of the best entry, the string unknown when there is none. -/
def bestName : Option (String × ℤ) → String
  | none => "unknown"
  | some (nm, _) => nm

theorem champ_none (nm : String) (m : ℤ) : champ nm m none = nm := rfl

theorem champ_some (nm : String) (m : ℤ) (nm2 : String) (d2 : ℤ) :
    champ nm m (some (nm2, d2)) = if d2 < m then nm2 else nm := rfl

theorem firstMin_cons_none (q : RGB) (enm : String) (ec : RGB)
    (rest : List (String × RGB)) (h : firstMin q rest = none) :
    firstMin q ((enm, ec) :: rest) = some (enm, sqDist ec q) := by
  simp [firstMin, h]

theorem firstMin_cons_le (q : RGB) (enm : String) (ec : RGB)
    (rest : List (String × RGB)) (nm2 : String) (d2 : ℤ)
    (h : firstMin q rest = some (nm2, d2)) (hle : sqDist ec q ≤ d2) :
    firstMin q ((enm, ec) :: rest) = some (enm, sqDist ec q) := by
  simp [firstMin, h, hle]

theorem firstMin_cons_gt (q : RGB) (enm : String) (ec : RGB)
    (rest : List (String × RGB)) (nm2 : String) (d2 : ℤ)
    (h : firstMin q rest = some (nm2, d2)) (hgt : ¬ sqDist ec q ≤ d2) :
    firstMin q ((enm, ec) :: rest) = some (nm2, d2) := by
  simp [firstMin, h, hgt]

theorem closest_scan_cons (q : RGB) (enm : String) (ec : RGB)
    (rest : List (String × RGB)) (m : ℤ) (nm : String) :
    closest_scan q ((enm, ec) :: rest) (some m) nm =
      if sqDist ec q < m then
        (if sqDist ec q = 0 then enm else closest_scan q rest (some (sqDist ec q)) enm)
      else closest_scan q rest (some m) nm := rfl

theorem closest_scan_spec (q : RGB) (l : List (String × RGB)) :
    ∀ m nm, closest_scan q l (some m) nm = champ nm m (firstMin q l) := by
  induction l with
  | nil => intro m nm; simp [closest_scan, firstMin, champ]
  | cons e rest ih =>
    intro m nm
    obtain ⟨enm, ec⟩ := e
    rw [closest_scan_cons]
    by_cases hdm : sqDist ec q < m
    · rw [if_pos hdm]
      by_cases hd0 : sqDist ec q = 0
      · rw [if_pos hd0]
        rcases hrest : firstMin q rest with _ | ⟨nm2, d2⟩
        · rw [firstMin_cons_none q enm ec rest hrest, champ_some, if_pos (by omega)]
        · have hd2 : 0 ≤ d2 := firstMin_nonneg q rest nm2 d2 hrest
          rw [firstMin_cons_le q enm ec rest nm2 d2 hrest (by omega), champ_some,
            if_pos (by omega)]
      · rw [if_neg hd0, ih]
        rcases hrest : firstMin q rest with _ | ⟨nm2, d2⟩
        · rw [firstMin_cons_none q enm ec rest hrest, champ_none, champ_some,
            if_pos hdm]
        · by_cases hle : sqDist ec q ≤ d2
          · rw [firstMin_cons_le q enm ec rest nm2 d2 hrest hle, champ_some, champ_some,
              if_neg (by omega), if_pos hdm]
          · rw [firstMin_cons_gt q enm ec rest nm2 d2 hrest hle, champ_some, champ_some,
              if_pos (by omega), if_pos (by omega)]
    · rw [if_neg hdm, ih]
      rcases hrest : firstMin q rest with _ | ⟨nm2, d2⟩
      · rw [firstMin_cons_none q enm ec rest hrest, champ_none, champ_some,
          if_neg (by omega)]
      · by_cases hle : sqDist ec q ≤ d2
        · rw [firstMin_cons_le q enm ec rest nm2 d2 hrest hle, champ_some, champ_some,
            if_neg (by omega), if_neg (by omega)]
        · rw [firstMin_cons_gt q enm ec rest nm2 d2 hrest hle]

theorem closest_scan_init (q : RGB) (l : List (String × RGB)) :
    closest_scan q l none "unknown" = bestName (firstMin q l) := by
  cases l with
  | nil => simp [closest_scan, firstMin, bestName]
  | cons e rest =>
    obtain ⟨enm, ec⟩ := e
    have hcons : closest_scan q ((enm, ec) :: rest) none "unknown" =
        (if sqDist ec q = 0 then enm
         else closest_scan q rest (some (sqDist ec q)) enm) := rfl
    rw [hcons]
    by_cases hd0 : sqDist ec q = 0
    · rw [if_pos hd0]
      rcases hrest : firstMin q rest with _ | ⟨nm2, d2⟩
      · rw [firstMin_cons_none q enm ec rest hrest]
        rfl
      · have hd2 : 0 ≤ d2 := firstMin_nonneg q rest nm2 d2 hrest
        rw [firstMin_cons_le q enm ec rest nm2 d2 hrest (by omega)]
        rfl
    · rw [if_neg hd0, closest_scan_spec]
      rcases hrest : firstMin q rest with _ | ⟨nm2, d2⟩
      · rw [firstMin_cons_none q enm ec rest hrest, champ_none]
        rfl
      · by_cases hle : sqDist ec q ≤ d2
        · rw [firstMin_cons_le q enm ec rest nm2 d2 hrest hle, champ_some,
            if_neg (by omega)]
          rfl
        · rw [firstMin_cons_gt q enm ec rest nm2 d2 hrest hle, champ_some,
            if_pos (show d2 < sqDist ec q by omega)]
          rfl

theorem exact_scan_mem (q : RGB) :
    ∀ l nm, exact_scan q l = some nm → nm ∈ l.map Prod.fst := by
  intro l
  induction l with
  | nil => intro nm h; simp [exact_scan] at h
  | cons e rest ih =>
    intro nm h
    obtain ⟨enm, ec⟩ := e
    simp only [exact_scan] at h
    by_cases hc : ec = q
    · rw [if_pos hc, Option.some.injEq] at h
      simp [← h]
    · rw [if_neg hc] at h
      simp only [List.map_cons, List.mem_cons]
      exact Or.inr (ih nm h)

theorem firstMin_mem (q : RGB) :
    ∀ l nm d, firstMin q l = some (nm, d) → nm ∈ l.map Prod.fst := by
  intro l
  induction l with
  | nil => intro nm d h; simp [firstMin] at h
  | cons e rest ih =>
    intro nm d h
    obtain ⟨enm, ec⟩ := e
    simp only [firstMin] at h
    rcases hrest : firstMin q rest with _ | ⟨nm2, d2⟩ <;> rw [hrest] at h
    · simp only [Option.some.injEq, Prod.mk.injEq] at h
      simp [← h.1]
    · by_cases hle : sqDist ec q ≤ d2 <;> simp only [hle, if_true, if_false,
        Option.some.injEq, Prod.mk.injEq] at h
      · simp [← h.1]
      · simp only [List.map_cons, List.mem_cons]
        refine Or.inr (ih nm d ?_)
        rw [hrest, h.1, h.2]

theorem firstMin_isSome_of_cons (q : RGB) (e : String × RGB)
    (rest : List (String × RGB)) : (firstMin q (e :: rest)).isSome := by
  obtain ⟨enm, ec⟩ := e
  rcases hrest : firstMin q rest with _ | ⟨nm2, d2⟩
  · rw [firstMin_cons_none q enm ec rest hrest]; rfl
  · by_cases hle : sqDist ec q ≤ d2
    · rw [firstMin_cons_le q enm ec rest nm2 d2 hrest hle]; rfl
    · rw [firstMin_cons_gt q enm ec rest nm2 d2 hrest hle]; rfl

theorem firstMin_colourDict_isSome (q : RGB) : (firstMin q colourDict).isSome := by
  obtain ⟨e, rest, hcons⟩ : ∃ e rest, colourDict = e :: rest := ⟨_, _, rfl⟩
  rw [hcons]
  exact firstMin_isSome_of_cons q e rest

theorem get_colour_name_exact (q : RGB) (nm : String)
    (h : exact_scan q colourDict = some nm) : get_colour_name q = nm := by
  unfold get_colour_name; rw [h]

theorem get_colour_name_noexact (q : RGB)
    (h : exact_scan q colourDict = none) : get_colour_name q = closest_colour q := by
  unfold get_colour_name; rw [h]

theorem nameOfSpec_exact (q : RGB) (nm : String)
    (h : exact_scan q colourDict = some nm) : nameOfSpec q = nm := by
  unfold nameOfSpec; rw [h]

theorem nameOfSpec_noexact (q : RGB) (nm2 : String) (d2 : ℤ)
    (hex : exact_scan q colourDict = none)
    (hfm : firstMin q colourDict = some (nm2, d2)) : nameOfSpec q = nm2 := by
  unfold nameOfSpec; rw [hex, hfm]

/-- C3: after initialization, get_colour_name returns the first exact match in
insertion order when one exists, otherwise the first entry of minimal squared
Euclidean distance; the result always names a dictionary entry and is never
the string unknown. -/
theorem get_colour_name_spec (q : RGB) :
    get_colour_name q = nameOfSpec q ∧
    get_colour_name q ∈ colourDict.map Prod.fst ∧
    get_colour_name q ≠ "unknown" := by
  rcases hex : exact_scan q colourDict with _ | nm
  · obtain ⟨p, hfm⟩ := Option.isSome_iff_exists.mp (firstMin_colourDict_isSome q)
    obtain ⟨nm2, d2⟩ := p
    have h1 : get_colour_name q = nm2 := by
      rw [get_colour_name_noexact q hex]
      unfold closest_colour
      rw [closest_scan_init, hfm]
      rfl
    have hmem : nm2 ∈ colourDict.map Prod.fst := firstMin_mem q colourDict nm2 d2 hfm
    refine ⟨by rw [h1, nameOfSpec_noexact q nm2 d2 hex hfm], by rw [h1]; exact hmem, ?_⟩
    rw [h1]
    intro hu
    rw [hu] at hmem
    exact absurd hmem (by decide)
  · have h1 : get_colour_name q = nm := get_colour_name_exact q nm hex
    have hmem : nm ∈ colourDict.map Prod.fst := exact_scan_mem q colourDict nm hex
    refine ⟨by rw [h1, nameOfSpec_exact q nm hex], by rw [h1]; exact hmem, ?_⟩
    rw [h1]
    intro hu
    rw [hu] at hmem
    exact absurd hmem (by decide)

/-- Round half to even on rationals, the rounding of numpy np.round
(src/wheel_generator.py line 20), with the float32 arithmetic idealized as
exact rational arithmetic. -/
def npround (x : ℚ) : ℤ :=
  let f := ⌊x⌋
  let r := x - f
  if r < 1/2 then f
  else if 1/2 < r then f + 1
  else if f % 2 = 0 then f else f + 1

/-- Clip to an interval, modelling np.clip. -/
def npclip (x lo hi : ℚ) : ℚ := max lo (min x hi)

/-- Per-channel quantization of quantize_array (src/wheel_generator.py lines
19-21): round(x / step) * step with step = 255/(levels-1), clipped to
[0, 255], then cast to uint8 (the cast truncates toward zero; after the clip
the value is nonnegative, so truncation is the floor). -/
def quantize_channel (levels : ℤ) (x : ℕ) : ℕ :=
  let step : ℚ := 255 / ((levels : ℚ) - 1)
  let q : ℚ := (npround ((x : ℚ) / step) : ℚ) * step
  (⌊npclip q 0 255⌋).toNat

/-- quantize_array (src/wheel_generator.py lines 8-21) on the flattened list
of channel values of an H x W x 3 uint8 array; none models the Python None. -/
def quantize_array (arr : List ℕ) (levels : Option ℤ) : List ℕ :=
  match levels with
  | none => arr
  | some l =>
    if 256 ≤ l then arr
    else if l ≤ 1 then arr.map (fun _ => 128)
    else arr.map (quantize_channel l)

/-- C6: quantize_array is the identity when levels is absent or at least 256;
collapses every channel to 128 when levels is at most 1; and otherwise maps
each channel x to round(x/step)*step with step = 255/(levels-1), clipped to
[0,255]; in particular levels 256 is the identity and levels 1 yields 128
everywhere. -/
theorem quantize_array_spec :
    (∀ arr : List ℕ, quantize_array arr none = arr) ∧
    (∀ (arr : List ℕ) (l : ℤ), 256 ≤ l → quantize_array arr (some l) = arr) ∧
    (∀ (arr : List ℕ) (l : ℤ), l ≤ 1 →
      quantize_array arr (some l) = arr.map (fun _ => 128)) ∧
    (∀ (arr : List ℕ) (l : ℤ), 1 < l → l < 256 →
      quantize_array arr (some l) = arr.map (quantize_channel l)) ∧
    (∀ arr : List ℕ, quantize_array arr (some 256) = arr) ∧
    (∀ arr : List ℕ, quantize_array arr (some 1) = arr.map (fun _ => 128)) := by
  refine ⟨fun arr => rfl, ?_, ?_, ?_, ?_, ?_⟩
  · intro arr l hl
    simp only [quantize_array]
    rw [if_pos hl]
  · intro arr l hl
    simp only [quantize_array]
    rw [if_neg (by omega), if_pos hl]
  · intro arr l h1 h2
    simp only [quantize_array]
    rw [if_neg (by omega), if_neg (by omega)]
  · intro arr
    simp only [quantize_array]
    rw [if_pos (by omega)]
  · intro arr
    simp only [quantize_array]
    rw [if_neg (by omega), if_pos (by omega)]

/-- Witness for C6 at concrete inputs. -/
theorem quantize_array_spec_witness :
    (256 : ℤ) ≤ 400 ∧ quantize_array [0, 7, 255] (some 400) = [0, 7, 255] :=
  ⟨by decide, quantize_array_spec.2.1 [0, 7, 255] 400 (by decide)⟩

/-- The ASCII whitespace stripped by the Python str.strip and by int():
space, tab, newline, carriage return, vertical tab, form feed. -/
def isPyWs (c : Char) : Bool :=
  c.toNat = 32 || c.toNat = 9 || c.toNat = 10 || c.toNat = 13 ||
  c.toNat = 11 || c.toNat = 12

/-- Strip leading and trailing whitespace, modelling str.strip on ASCII. -/
def pystrip (l : List Char) : List Char :=
  ((l.dropWhile isPyWs).reverse.dropWhile isPyWs).reverse

/-- Hexadecimal digit test: 0-9, a-f, A-F (by code point). -/
def isHexDigitCh (c : Char) : Bool :=
  (48 ≤ c.toNat && c.toNat ≤ 57) ||
  (97 ≤ c.toNat && c.toNat ≤ 102) ||
  (65 ≤ c.toNat && c.toNat ≤ 70)

/-- Value of a hexadecimal digit character. -/
def hexVal (c : Char) : ℤ :=
  if 48 ≤ c.toNat ∧ c.toNat ≤ 57 then (c.toNat : ℤ) - 48
  else if 97 ≤ c.toNat ∧ c.toNat ≤ 102 then (c.toNat : ℤ) - 97 + 10
  else (c.toNat : ℤ) - 65 + 10

/-- Digit tail of the CPython base-16 integer grammar: after a first digit,
further digits follow, with a single underscore allowed between digits. -/
def hexTail (acc : ℤ) : List Char → Option ℤ
  | [] => some acc
  | c :: rest =>
    if c = '_' then
      match rest with
      | [] => none
      | c2 :: r2 => if isHexDigitCh c2 then hexTail (16 * acc + hexVal c2) r2 else none
    else if isHexDigitCh c then hexTail (16 * acc + hexVal c) rest else none

/-- Nonempty run of hex digits with single underscores between digits. -/
def hexDigits : List Char → Option ℤ
  | [] => none
  | c :: rest => if isHexDigitCh c then hexTail (hexVal c) rest else none

/-- Drop one leading underscore (allowed directly after the 0x prefix). -/
def dropUnd (l : List Char) : List Char :=
  match l with
  | c :: r => if c = '_' then r else l
  | [] => l

/-- Body of int(s, 16) after sign handling: optional 0x or 0X prefix
(an underscore may follow the prefix), then the digit run. -/
def pyIntHexBody (l : List Char) : Option ℤ :=
  match l with
  | c0 :: c1 :: rest =>
    if c0 = '0' ∧ (c1 = 'x' ∨ c1 = 'X') then hexDigits (dropUnd rest)
    else hexDigits (c0 :: c1 :: rest)
  | _ => hexDigits l

/-- CPython int(s, 16) on ASCII character lists: surrounding whitespace, an
optional sign, an optional 0x prefix, hex digits with single underscores
between digits.  none models a raised ValueError. -/
def pyIntHex (l : List Char) : Option ℤ :=
  match pystrip l with
  | [] => none
  | c :: r =>
    if c = '+' then pyIntHexBody r
    else if c = '-' then (pyIntHexBody r).map (fun v => -v)
    else pyIntHexBody (c :: r)

/-- Drop a single leading hash character, modelling the startswith branch of
hex_to_rgb. -/
def stripHash (l : List Char) : List Char :=
  match l with
  | c :: r => if c = '#' then r else l
  | [] => l

/-- hex_to_rgb (src/color_utils.py lines 254-277): strip whitespace, drop an
optional leading hash, require length 6, parse the three 2-character slices
with int(-, 16); none models the returned None. -/
def hex_to_rgb (s : String) : Option RGB :=
  let t := stripHash (pystrip s.data)
  if t.length ≠ 6 then none
  else
    match pyIntHex (t.take 2), pyIntHex ((t.drop 2).take 2), pyIntHex (t.drop 4) with
    | some r, some g, some b => some (r, g, b)
    | _, _, _ => none

/-- Left pad with zero characters to a given width. -/
def zpad (w : ℕ) (l : List Char) : List Char :=
  List.replicate (w - l.length) '0' ++ l

/-- One channel of the %02x format: lowercase hex, zero-padded to width 2
(a sign counts toward the width, as in Python). -/
def fmt02x (n : ℤ) : List Char :=
  if n < 0 then '-' :: zpad 1 (Nat.toDigits 16 n.natAbs)
  else zpad 2 (Nat.toDigits 16 n.toNat)

/-- rgb_to_hex (src/color_utils.py lines 241-251): the format string
hash 02x 02x 02x. -/
def rgb_to_hex (c : RGB) : String :=
  ⟨'#' :: (fmt02x c.1 ++ fmt02x c.2.1 ++ fmt02x c.2.2)⟩

/-- Claim-side predicate: the string reduces to exactly 6 hex digits after
stripping whitespace and an optional leading hash. -/
def sixHexb (s : String) : Bool :=
  let t := stripHash (pystrip s.data)
  t.length == 6 && t.all isHexDigitCh

/-- C8 counterexample: a string of three sign-digit pairs is not 6 hex
digits, yet hex_to_rgb accepts it, because int(-, 16) accepts a leading
sign in each 2-character slice. -/
theorem hex_to_rgb_accepts_signs :
    hex_to_rgb "+1+2+3" = some (1, 2, 3) ∧ sixHexb "+1+2+3" = false := by
  constructor <;> rfl

theorem dropWhile_eq_self_of (p : Char → Bool) (l : List Char)
    (h : ∀ c ∈ l, p c = false) : l.dropWhile p = l := by
  cases l with
  | nil => rfl
  | cons a t =>
    rw [List.dropWhile_cons]
    rw [h a (by simp)]
    simp

theorem pystrip_eq_self (l : List Char) (h : ∀ c ∈ l, isPyWs c = false) :
    pystrip l = l := by
  unfold pystrip
  rw [dropWhile_eq_self_of _ _ h,
    dropWhile_eq_self_of _ _ (by intro c hc; exact h c (List.mem_reverse.mp hc)),
    List.reverse_reverse]

theorem hex_not_ws (c : Char) (h : isHexDigitCh c = true) : isPyWs c = false := by
  simp only [isHexDigitCh, Bool.or_eq_true, Bool.and_eq_true, decide_eq_true_eq] at h
  simp only [isPyWs, Bool.or_eq_false_iff, decide_eq_false_iff_not]
  omega

theorem pyIntHex_pair (c1 c2 : Char) (h1 : isHexDigitCh c1 = true)
    (h2 : isHexDigitCh c2 = true) :
    pyIntHex [c1, c2] = some (16 * hexVal c1 + hexVal c2) := by
  have hne1p : c1 ≠ '+' := by intro h; rw [h] at h1; exact absurd h1 (by decide)
  have hne1m : c1 ≠ '-' := by intro h; rw [h] at h1; exact absurd h1 (by decide)
  have hx : ¬(c1 = '0' ∧ (c2 = 'x' ∨ c2 = 'X')) := by
    rintro ⟨h0, hc | hc⟩ <;> (rw [hc] at h2; exact absurd h2 (by decide))
  have hnu : c2 ≠ '_' := by intro h; rw [h] at h2; exact absurd h2 (by decide)
  have hs : pystrip [c1, c2] = [c1, c2] := by
    refine pystrip_eq_self _ ?_
    intro c hc
    rcases List.mem_cons.mp hc with hc1 | hc
    · rw [hc1]; exact hex_not_ws c1 h1
    · rcases List.mem_cons.mp hc with hc2 | hc
      · rw [hc2]; exact hex_not_ws c2 h2
      · exact absurd hc (List.not_mem_nil c)
  unfold pyIntHex
  rw [hs]
  simp only [if_neg hne1p, if_neg hne1m]
  simp only [pyIntHexBody]
  rw [if_neg hx]
  simp only [hexDigits]
  rw [if_pos h1]
  simp only [hexTail]
  rw [if_neg hnu, if_pos h2]

theorem hex_slices_parse (t : List Char) (hlen : t.length = 6)
    (hall : ∀ c ∈ t, isHexDigitCh c = true) :
    ∃ r g b : ℤ, pyIntHex (t.take 2) = some r ∧
      pyIntHex ((t.drop 2).take 2) = some g ∧ pyIntHex (t.drop 4) = some b := by
  rcases t with _ | ⟨a, _ | ⟨b, _ | ⟨c, _ | ⟨d, _ | ⟨e, _ | ⟨f, _ | ⟨g, rest⟩⟩⟩⟩⟩⟩⟩ <;>
    simp only [List.length] at hlen <;> try omega
  have ha := hall a (by simp)
  have hb := hall b (by simp)
  have hc := hall c (by simp)
  have hd := hall d (by simp)
  have he := hall e (by simp)
  have hf := hall f (by simp)
  refine ⟨16 * hexVal a + hexVal b, 16 * hexVal c + hexVal d,
    16 * hexVal e + hexVal f, ?_, ?_, ?_⟩
  · show pyIntHex [a, b] = _
    exact pyIntHex_pair a b ha hb
  · show pyIntHex [c, d] = _
    exact pyIntHex_pair c d hc hd
  · show pyIntHex [e, f] = _
    exact pyIntHex_pair e f he hf

/-- C8 amended: hex_to_rgb returns none exactly when, after stripping
whitespace and one optional leading hash, the string does not have length 6
or one of its three 2-character slices is rejected by the base-16 integer
parse; every string of exactly 6 hex digits is accepted, but strings with
sign characters in a slice are accepted too (signs are not rejected), as the
counterexample shows. -/
theorem hex_to_rgb_none_iff (s : String) :
    (hex_to_rgb s = none ↔
      ((stripHash (pystrip s.data)).length ≠ 6 ∨
       pyIntHex ((stripHash (pystrip s.data)).take 2) = none ∨
       pyIntHex (((stripHash (pystrip s.data)).drop 2).take 2) = none ∨
       pyIntHex ((stripHash (pystrip s.data)).drop 4) = none)) ∧
    (sixHexb s = true → hex_to_rgb s ≠ none) := by
  constructor
  · unfold hex_to_rgb
    by_cases hlen : (stripHash (pystrip s.data)).length ≠ 6
    · rw [if_pos hlen]
      exact ⟨fun _ => Or.inl hlen, fun _ => rfl⟩
    · rw [if_neg hlen]
      rcases h1 : pyIntHex ((stripHash (pystrip s.data)).take 2) with _ | r <;>
        rcases h2 : pyIntHex (((stripHash (pystrip s.data)).drop 2).take 2) with _ | g <;>
        rcases h3 : pyIntHex ((stripHash (pystrip s.data)).drop 4) with _ | b <;>
        simp [hlen, h1, h2, h3]
  · intro hsix
    simp only [sixHexb, Bool.and_eq_true, beq_iff_eq, List.all_eq_true] at hsix
    obtain ⟨hlen, hall⟩ := hsix
    obtain ⟨r, g, b, h1, h2, h3⟩ := hex_slices_parse _ hlen hall
    unfold hex_to_rgb
    rw [if_neg (by omega), h1, h2, h3]
    simp

/-- Witness for C8 at a concrete accepted input. -/
theorem hex_to_rgb_none_iff_witness :
    sixHexb "aAbBcC" = true ∧ hex_to_rgb "aAbBcC" ≠ none :=
  ⟨by decide, (hex_to_rgb_none_iff "aAbBcC").2 (by decide)⟩

set_option maxRecDepth 4000 in
theorem fmt02x_parse : ∀ n : ℕ, n < 256 →
    pyIntHex (fmt02x (n : ℤ)) = some (n : ℤ) := by decide

set_option maxRecDepth 4000 in
theorem fmt02x_shape : ∀ n : ℕ, n < 256 →
    (fmt02x (n : ℤ)).length = 2 ∧ (fmt02x (n : ℤ)).all isHexDigitCh = true := by decide

theorem hex_to_rgb_concat (A B C : List Char) (hA : A.length = 2)
    (hB : B.length = 2) (hC : C.length = 2)
    (hall : ∀ c ∈ A ++ B ++ C, isHexDigitCh c = true)
    (a b c : ℤ) (ha : pyIntHex A = some a) (hb : pyIntHex B = some b)
    (hc : pyIntHex C = some c) :
    hex_to_rgb ⟨'#' :: (A ++ B ++ C)⟩ = some (a, b, c) := by
  have hdata : (String.mk ('#' :: (A ++ B ++ C))).data = '#' :: (A ++ B ++ C) := rfl
  have hstrip : pystrip ('#' :: (A ++ B ++ C)) = '#' :: (A ++ B ++ C) := by
    refine pystrip_eq_self _ ?_
    intro ch hch
    rcases List.mem_cons.mp hch with h | h
    · rw [h]; rfl
    · exact hex_not_ws ch (hall ch h)
  have hhash : stripHash ('#' :: (A ++ B ++ C)) = A ++ B ++ C := by
    simp [stripHash]
  have htake : (A ++ B ++ C).take 2 = A := by
    rw [List.append_assoc, ← hA, List.take_left]
  have hdrop2 : (A ++ B ++ C).drop 2 = B ++ C := by
    rw [List.append_assoc, ← hA, List.drop_left]
  have htakeB : (B ++ C).take 2 = B := by
    rw [← hB, List.take_left]
  have hdrop4 : (A ++ B ++ C).drop 4 = C := by
    have h22 : (4 : ℕ) = 2 + 2 := rfl
    rw [h22, ← List.drop_drop, hdrop2, ← hB, List.drop_left]
  unfold hex_to_rgb
  rw [hdata, hstrip, hhash]
  rw [if_neg (by simp [hA, hB, hC])]
  rw [htake, hdrop2, htakeB, hdrop4, ha, hb, hc]

/-- C9: the hex round trip is the identity on RGB triples with channels in
[0, 255], and the two concrete conversions of the spec hold. -/
theorem hex_round_trip :
    (∀ r g b : ℤ, 0 ≤ r → r ≤ 255 → 0 ≤ g → g ≤ 255 → 0 ≤ b → b ≤ 255 →
      hex_to_rgb (rgb_to_hex (r, g, b)) = some (r, g, b)) ∧
    hex_to_rgb "#C0C0C0" = some (192, 192, 192) ∧
    rgb_to_hex (192, 192, 192) = "#c0c0c0" := by
  refine ⟨?_, by rfl, by rfl⟩
  intro r g b hr0 hr1 hg0 hg1 hb0 hb1
  obtain ⟨nr, rfl⟩ : ∃ n : ℕ, (n : ℤ) = r := ⟨r.toNat, Int.toNat_of_nonneg hr0⟩
  obtain ⟨ng, rfl⟩ : ∃ n : ℕ, (n : ℤ) = g := ⟨g.toNat, Int.toNat_of_nonneg hg0⟩
  obtain ⟨nb, rfl⟩ : ∃ n : ℕ, (n : ℤ) = b := ⟨b.toNat, Int.toNat_of_nonneg hb0⟩
  have hnr : nr < 256 := by exact_mod_cast Int.lt_add_one_iff.mpr hr1
  have hng : ng < 256 := by exact_mod_cast Int.lt_add_one_iff.mpr hg1
  have hnb : nb < 256 := by exact_mod_cast Int.lt_add_one_iff.mpr hb1
  have hshr := fmt02x_shape nr hnr
  have hshg := fmt02x_shape ng hng
  have hshb := fmt02x_shape nb hnb
  have hrgb : rgb_to_hex ((nr : ℤ), (ng : ℤ), (nb : ℤ)) =
      ⟨'#' :: (fmt02x (nr : ℤ) ++ fmt02x (ng : ℤ) ++ fmt02x (nb : ℤ))⟩ := rfl
  rw [hrgb]
  refine hex_to_rgb_concat _ _ _ hshr.1 hshg.1 hshb.1 ?_ _ _ _
    (fmt02x_parse nr hnr) (fmt02x_parse ng hng) (fmt02x_parse nb hnb)
  intro ch hch
  rcases List.mem_append.mp hch with h | h
  · rcases List.mem_append.mp h with h | h
    · exact List.all_eq_true.mp hshr.2 ch h
    · exact List.all_eq_true.mp hshg.2 ch h
  · exact List.all_eq_true.mp hshb.2 ch h

/-- Witness for C9 applying the round trip at the silver triple. -/
theorem hex_round_trip_witness :
    ((0 : ℤ) ≤ 192 ∧ (192 : ℤ) ≤ 255) ∧
    hex_to_rgb (rgb_to_hex (192, 192, 192)) = some (192, 192, 192) :=
  ⟨⟨by decide, by decide⟩,
    hex_round_trip.1 192 192 192 (by decide) (by decide) (by decide) (by decide)
      (by decide) (by decide)⟩

/-- Python float modulo x % y = x - y * floor(x / y); the result takes the
sign of the divisor, as in Python. -/
noncomputable def pymod (x y : ℝ) : ℝ := x - y * ⌊x / y⌋

/-- Python int() applied to a float: truncation toward zero. -/
noncomputable def pytrunc (x : ℝ) : ℤ := if 0 ≤ x then ⌊x⌋ else ⌈x⌉

/-- curve_t (src/gradient_logic.py lines 83-93; the identical local function
of src/export_palette.py lines 53-60): power-law easing with the float
operator ** embedded as the real power. -/
noncomputable def curve_t (t curve : ℝ) : ℝ :=
  let c := curve / 100
  if c = 0 then t
  else if 0 < c then t ^ ((1 : ℝ) / (1 + c * 2))
  else t ^ ((1 : ℝ) - c * 2)

/-- colorsys.hsv_to_rgb of the CPython standard library, called by
hsv_to_rgb255; int(h*6.0) truncates toward zero and i%6 is the Python
integer modulo. -/
noncomputable def hsv_to_rgb (h s v : ℝ) : ℝ × ℝ × ℝ :=
  if s = 0 then (v, v, v)
  else
    let i : ℤ := pytrunc (h * 6)
    let f : ℝ := h * 6 - i
    let p := v * (1 - s)
    let q := v * (1 - s * f)
    let t := v * (1 - s * (1 - f))
    let j := Int.fmod i 6
    if j = 0 then (v, t, p)
    else if j = 1 then (q, v, p)
    else if j = 2 then (p, v, t)
    else if j = 3 then (p, q, v)
    else if j = 4 then (t, p, v)
    else (v, p, q)

/-- hsv_to_rgb255 (src/color_utils.py lines 212-225): channels truncated to
integers after scaling by 255. -/
noncomputable def hsv_to_rgb255 (h s v : ℝ) : RGB :=
  (pytrunc ((hsv_to_rgb h s v).1 * 255), pytrunc ((hsv_to_rgb h s v).2.1 * 255),
   pytrunc ((hsv_to_rgb h s v).2.2 * 255))

/-- calculate_gradient_colors (src/gradient_logic.py lines 96-117).  The v1
and v2 arguments are rebound before the loop, exactly as in the source. -/
noncomputable def calculate_gradient_colors (steps : ℕ)
    (h1 s1 v1 h2 s2 v2 fine_shade1 fine_shade2 fine_hue2 gradient_curve shade : ℝ) :
    List RGB :=
  let v1 := shade * fine_shade1
  let v2 := shade * fine_shade2
  let h2 := pymod (h2 + fine_hue2) 1
  (List.range steps).map fun (i : ℕ) =>
    let t : ℝ := if 1 < steps then (i : ℝ) / ((steps : ℝ) - 1) else 0
    let t_curve := curve_t t gradient_curve
    let dh := pymod (h2 - h1 + 1.5) 1 - 0.5
    let h := pymod (h1 + t_curve * dh) 1
    let s := s1 + t_curve * (s2 - s1)
    let v := v1 + t_curve * (v2 - v1)
    hsv_to_rgb255 h s v

/-- The color selection, fine-tune adjustment and per-index color loop of
export_palette (src/export_palette.py lines 36-71), excluding the file
dialog; selected bundles the optionals selected_h, selected_s, selected_v,
which the caller sets together.  Note the source multiplies the selected v
by the fine shades here, instead of rebinding to shade times fine shade. -/
noncomputable def export_palette_colors (gradient_steps : ℕ)
    (gradient_curve fine_shade1 fine_shade2 fine_hue2 shade hue_shift : ℝ)
    (selected : Option (ℝ × ℝ × ℝ)) (selected_opp_h : ℝ) : List RGB :=
  let hsv : ℝ × ℝ × ℝ × ℝ × ℝ × ℝ :=
    match selected with
    | some (sh, ss, sv) => (sh, ss, sv, selected_opp_h, ss, sv)
    | none =>
      let h1 := pymod (0 + hue_shift) 1
      (h1, (1 : ℝ), shade, pymod (h1 + 0.5) 1, (1 : ℝ), shade)
  match hsv with
  | (h1, s1, v1, h2, s2, v2) =>
    let v1 := v1 * fine_shade1
    let v2 := v2 * fine_shade2
    let h2 := pymod (h2 + fine_hue2) 1
    (List.range gradient_steps).map fun (i : ℕ) =>
      let t : ℝ := if 1 < gradient_steps then (i : ℝ) / ((gradient_steps : ℝ) - 1) else 0
      let t_curve := curve_t t gradient_curve
      let dh := pymod (h2 - h1 + 1.5) 1 - 0.5
      let h := pymod (h1 + t_curve * dh) 1
      let s := s1 + t_curve * (s2 - s1)
      let v := v1 + t_curve * (v2 - v1)
      hsv_to_rgb255 h s v

/-- The color selection, adjustment and per-index color loop of the
ColourWheelApp.export_palette method (src/ColourPicker.py lines 512-540),
which, unlike the standalone module, rebinds v1 and v2 to shade times the
fine shades exactly as calculate_gradient_colors does. -/
noncomputable def app_export_palette_colors (gradient_steps : ℕ)
    (gradient_curve fine_shade1 fine_shade2 fine_hue2 shade hue_shift : ℝ)
    (selected : Option (ℝ × ℝ × ℝ)) (selected_opp_h : ℝ) : List RGB :=
  let hsv : ℝ × ℝ × ℝ × ℝ × ℝ × ℝ :=
    match selected with
    | some (sh, ss, sv) => (sh, ss, sv, selected_opp_h, ss, sv)
    | none =>
      let h1 := pymod (0 + hue_shift) 1
      (h1, (1 : ℝ), shade, pymod (h1 + 0.5) 1, (1 : ℝ), shade)
  match hsv with
  | (h1, s1, _, h2, s2, _) =>
    let v1 := shade * fine_shade1
    let v2 := shade * fine_shade2
    let h2 := pymod (h2 + fine_hue2) 1
    (List.range gradient_steps).map fun (i : ℕ) =>
      let t : ℝ := if 1 < gradient_steps then (i : ℝ) / ((gradient_steps : ℝ) - 1) else 0
      let t_curve := curve_t t gradient_curve
      let dh := pymod (h2 - h1 + 1.5) 1 - 0.5
      let h := pymod (h1 + t_curve * dh) 1
      let s := s1 + t_curve * (s2 - s1)
      let v := v1 + t_curve * (v2 - v1)
      hsv_to_rgb255 h s v

/-- Width-3 right-aligned decimal integer, the format 3d. -/
def fmt3 (n : ℤ) : String :=
  let s := toString n
  ⟨List.replicate (3 - s.length) ' ' ++ s.data⟩

/-- Position of the last dot. -/
def lastDot : List Char → Option ℕ
  | [] => none
  | c :: rest =>
    match lastDot rest with
    | some i => some (i + 1)
    | none => if c = '.' then some 0 else none

/-- Root part of os.path.splitext on a plain file name: cut at the last dot
unless only dots precede it. -/
def splitextRoot (l : List Char) : List Char :=
  match lastDot l with
  | none => l
  | some i => if (l.take i).all (fun c => c == '.') then l else l.take i

/-- Characters after the last slash, modelling os.path.basename for POSIX
paths. -/
def baseNameL (l : List Char) : List Char :=
  (l.reverse.takeWhile (fun c => c != '/')).reverse

/-- The palette name of export_palette: basename without extension. -/
def paletteName (p : String) : String := ⟨splitextRoot (baseNameL p.data)⟩

/-- The list of lines written by export_palette (src/export_palette.py lines
29-74): the header, the name line, a hash line, then one line per gradient
color with three width-3 channels and the resolved color name. -/
noncomputable def export_palette_lines (file_path : String) (gradient_steps : ℕ)
    (gradient_curve fine_shade1 fine_shade2 fine_hue2 shade hue_shift : ℝ)
    (selected : Option (ℝ × ℝ × ℝ)) (selected_opp_h : ℝ) : List String :=
  ["GIMP Palette", "Name: " ++ paletteName file_path, "#"] ++
    (export_palette_colors gradient_steps gradient_curve fine_shade1 fine_shade2
        fine_hue2 shade hue_shift selected selected_opp_h).map
      (fun rgb => fmt3 rgb.1 ++ " " ++ fmt3 rgb.2.1 ++ " " ++ fmt3 rgb.2.2 ++ " " ++
        get_colour_name rgb)

theorem curve_t_identity_curve (t : ℝ) : curve_t t 0 = t := by
  unfold curve_t
  norm_num

theorem curve_t_at_zero (curve : ℝ) : curve_t 0 curve = 0 := by
  unfold curve_t
  by_cases h0 : curve / 100 = 0
  · rw [if_pos h0]
  · rw [if_neg h0]
    by_cases hpos : 0 < curve / 100
    · rw [if_pos hpos]
      exact Real.zero_rpow (by positivity)
    · rw [if_neg hpos]
      have hneg : curve / 100 < 0 := lt_of_le_of_ne (not_lt.mp hpos) h0
      exact Real.zero_rpow (ne_of_gt (by nlinarith))
  
theorem curve_t_at_one (curve : ℝ) : curve_t 1 curve = 1 := by
  unfold curve_t
  by_cases h0 : curve / 100 = 0
  · rw [if_pos h0]
  · rw [if_neg h0]
    by_cases hpos : 0 < curve / 100
    · rw [if_pos hpos]
      exact Real.one_rpow _
    · rw [if_neg hpos]
      exact Real.one_rpow _

/-- C5: curve_t fixes the endpoints 0 and 1 for every curve in [-100, 100]
and reduces to the identity at curve 0 for every t in [0, 1]. -/
theorem curve_t_spec (curve t : ℝ) (hc1 : -100 ≤ curve) (hc2 : curve ≤ 100)
    (ht1 : 0 ≤ t) (ht2 : t ≤ 1) :
    curve_t 0 curve = 0 ∧ curve_t 1 curve = 1 ∧ curve_t t 0 = t :=
  ⟨curve_t_at_zero curve, curve_t_at_one curve, curve_t_identity_curve t⟩

/-- Witness for C5 at curve 50 and t one half. -/
theorem curve_t_spec_witness :
    ((-100 : ℝ) ≤ 50 ∧ (50 : ℝ) ≤ 100 ∧ (0 : ℝ) ≤ 1/2 ∧ (1/2 : ℝ) ≤ 1) ∧
    (curve_t 0 50 = 0 ∧ curve_t 1 50 = 1 ∧ curve_t (1/2) 0 = 1/2) :=
  ⟨⟨by norm_num, by norm_num, by norm_num, by norm_num⟩,
   curve_t_spec 50 (1/2) (by norm_num) (by norm_num) (by norm_num) (by norm_num)⟩

theorem pymod_one_fract (x : ℝ) : pymod x 1 = Int.fract x := by
  unfold pymod Int.fract
  rw [div_one, one_mul]

/-- C4: the circular hue delta of the gradient loop lies in [-1/2, 1/2), and
adding it to the start hue reaches the end hue modulo 1. -/
theorem hue_delta_spec (h1 h2 : ℝ) (ha : 0 ≤ h1) (hb : h1 < 1)
    (hc : 0 ≤ h2) (hd : h2 < 1) :
    (-(1/2) ≤ pymod (h2 - h1 + 1.5) 1 - 0.5 ∧ pymod (h2 - h1 + 1.5) 1 - 0.5 < 1/2) ∧
    pymod (h1 + (pymod (h2 - h1 + 1.5) 1 - 0.5)) 1 = pymod h2 1 := by
  rw [pymod_one_fract, pymod_one_fract, pymod_one_fract]
  refine ⟨⟨?_, ?_⟩, ?_⟩
  · have := Int.fract_nonneg (h2 - h1 + 1.5)
    linarith
  · have := Int.fract_lt_one (h2 - h1 + 1.5)
    linarith
  · have key : h1 + (Int.fract (h2 - h1 + 1.5) - 0.5) =
        h2 + ((1 - ⌊h2 - h1 + 1.5⌋ : ℤ) : ℝ) := by
      unfold Int.fract
      push_cast
      ring
    rw [key, Int.fract_add_int]

/-- Witness for C4 at the red and cyan hues. -/
theorem hue_delta_spec_witness :
    ((0 : ℝ) ≤ 0 ∧ (0 : ℝ) < 1 ∧ (0 : ℝ) ≤ 1/2 ∧ (1/2 : ℝ) < 1) ∧
    ((-(1/2) ≤ pymod ((1/2 : ℝ) - 0 + 1.5) 1 - 0.5 ∧
      pymod ((1/2 : ℝ) - 0 + 1.5) 1 - 0.5 < 1/2) ∧
     pymod ((0 : ℝ) + (pymod ((1/2 : ℝ) - 0 + 1.5) 1 - 0.5)) 1 = pymod (1/2 : ℝ) 1) :=
  ⟨⟨by norm_num, by norm_num, by norm_num, by norm_num⟩,
   hue_delta_spec 0 (1/2) (by norm_num) (by norm_num) (by norm_num) (by norm_num)⟩

/-- C10: calculate_gradient_colors ignores the v components passed for the
two endpoints: brightness is rebound to shade times the fine shades before
the loop, so two calls differing only in v1 and v2 return identical lists. -/
theorem calculate_gradient_colors_v_independent (steps : ℕ)
    (h1 s1 h2 s2 fs1 fs2 fh2 curve shade v1 v2 v1' v2' : ℝ) :
    calculate_gradient_colors steps h1 s1 v1 h2 s2 v2 fs1 fs2 fh2 curve shade =
    calculate_gradient_colors steps h1 s1 v1' h2 s2 v2' fs1 fs2 fh2 curve shade := rfl

/-- C7: calculate_gradient_colors returns exactly steps colors; for steps 1
the division is guarded, t is 0, and the single color is the adjusted start
endpoint color. -/
theorem calculate_gradient_colors_steps (steps : ℕ)
    (h1 s1 v1 h2 s2 v2 fs1 fs2 fh2 curve shade : ℝ) (hs : 1 ≤ steps) :
    (calculate_gradient_colors steps h1 s1 v1 h2 s2 v2 fs1 fs2 fh2 curve shade).length
      = steps ∧
    (steps = 1 →
      calculate_gradient_colors steps h1 s1 v1 h2 s2 v2 fs1 fs2 fh2 curve shade
        = [hsv_to_rgb255 (pymod h1 1) s1 (shade * fs1)]) := by
  constructor
  · simp only [calculate_gradient_colors, List.length_map, List.length_range]
  · intro h1s
    subst h1s
    norm_num [calculate_gradient_colors, List.range_succ, curve_t_at_zero]

/-- Witness for C7 at one step. -/
theorem calculate_gradient_colors_steps_witness :
    1 ≤ 1 ∧
    ((calculate_gradient_colors 1 0 1 1 (1/2) 1 1 1 1 0 0 1).length = 1 ∧
     (1 = 1 →
       calculate_gradient_colors 1 0 1 1 (1/2) 1 1 1 1 0 0 1
         = [hsv_to_rgb255 (pymod 0 1) 1 (1 * 1)])) :=
  ⟨le_refl 1, calculate_gradient_colors_steps 1 0 1 1 (1/2) 1 1 1 1 0 0 1 (le_refl 1)⟩

theorem fract_neg_half : Int.fract (-(1/2) : ℝ) = 1/2 := by
  unfold Int.fract
  norm_num

theorem fract_three : Int.fract ((3 : ℝ)) = 0 := by
  unfold Int.fract
  norm_num

theorem export_colors_red_cyan :
    export_palette_colors 2 0 1 1 0 1 0 (some (0, 1, 1)) (1/2) =
      [(255, 0, 0), (0, 255, 255)] := by
  norm_num [export_palette_colors, List.range_succ, curve_t, pymod,
    hsv_to_rgb255, hsv_to_rgb, pytrunc, Int.fmod, fract_neg_half, fract_three]

theorem export_colors_halfred :
    export_palette_colors 1 0 1 1 0 1 0 (some (0, 1, 1/2)) (1/2) =
      [(127, 0, 0)] := by
  norm_num [export_palette_colors, List.range_succ, curve_t, pymod,
    hsv_to_rgb255, hsv_to_rgb, pytrunc, Int.fmod]

theorem calc_colors_red :
    calculate_gradient_colors 1 0 1 (1/2) (1/2) 1 (1/2) 1 1 0 0 1 =
      [(255, 0, 0)] := by
  norm_num [calculate_gradient_colors, List.range_succ, curve_t, pymod,
    hsv_to_rgb255, hsv_to_rgb, pytrunc, Int.fmod]

/-- C1 counterexample: with selected HSV (0, 1, 1/2), shade 1 and all fine
adjustments neutral, the export loop multiplies the selected v by the fine
shade (giving brightness 1/2), while calculate_gradient_colors rebinds
brightness to shade times fine shade (giving 1): the exported color (127,0,0)
differs from the displayed color (255,0,0). -/
theorem export_vs_gradient_counter :
    export_palette_colors 1 0 1 1 0 1 0 (some (0, 1, 1/2)) (1/2) ≠
    calculate_gradient_colors 1 0 1 (1/2) (1/2) 1 (1/2) 1 1 0 0 1 := by
  rw [export_colors_halfred, calc_colors_red]
  decide

/-- C1 amended: the per-index colors of the export routine equal those of
calculate_gradient_colors whenever the selected v equals the global shade
(the values the GUI passes satisfy this when selection tracks the wheel), and
unconditionally on the no-selection default path; in general the two differ
because export multiplies the selected v by the fine shades while
calculate_gradient_colors uses shade times fine shade. -/
theorem export_matches_gradient (steps : ℕ)
    (sh ss sv opph fs1 fs2 fh2 curve shade hue_shift v1 v2 : ℝ) :
    (sv = shade →
      export_palette_colors steps curve fs1 fs2 fh2 shade hue_shift
          (some (sh, ss, sv)) opph
        = calculate_gradient_colors steps sh ss v1 opph ss v2 fs1 fs2 fh2 curve shade) ∧
    export_palette_colors steps curve fs1 fs2 fh2 shade hue_shift none opph
      = calculate_gradient_colors steps (pymod (0 + hue_shift) 1) 1 v1
          (pymod (pymod (0 + hue_shift) 1 + 0.5) 1) 1 v2 fs1 fs2 fh2 curve shade ∧
    app_export_palette_colors steps curve fs1 fs2 fh2 shade hue_shift
        (some (sh, ss, sv)) opph
      = calculate_gradient_colors steps sh ss v1 opph ss v2 fs1 fs2 fh2 curve shade ∧
    app_export_palette_colors steps curve fs1 fs2 fh2 shade hue_shift none opph
      = calculate_gradient_colors steps (pymod (0 + hue_shift) 1) 1 v1
          (pymod (pymod (0 + hue_shift) 1 + 0.5) 1) 1 v2 fs1 fs2 fh2 curve shade := by
  refine ⟨?_, rfl, rfl, rfl⟩
  intro hveq
  subst hveq
  rfl

/-- Witness for C1 with a selected color whose v equals the shade. -/
theorem export_matches_gradient_witness :
    (1 : ℝ) = 1 ∧
    export_palette_colors 3 25 (9/10) (8/10) (1/20) 1 0 (some (1/4, 1, 1)) (3/4)
      = calculate_gradient_colors 3 (1/4) 1 0 (3/4) 1 0 (9/10) (8/10) (1/20) 25 1 :=
  ⟨rfl,
   (export_matches_gradient 3 (1/4) 1 1 (3/4) (9/10) (8/10) (1/20) 25 1 0 0 0).1 rfl⟩

/-- C2 amended: exporting the two-step red-cyan gradient to mypalette.gpl
produces exactly the five lines of the spec, except that the last color is
named aqua: the fixed table lists aqua before cyan at RGB (0,255,255) and the
exact-match scan returns the first name in insertion order. -/
theorem export_lines_red_aqua :
    export_palette_lines "mypalette.gpl" 2 0 1 1 0 1 0 (some (0, 1, 1)) (1/2) =
      ["GIMP Palette", "Name: mypalette", "#", "255   0   0 red",
       "  0 255 255 aqua"] := by
  unfold export_palette_lines
  rw [export_colors_red_cyan]
  rfl

/-- C2 counterexample: the fifth exported line names the color aqua, not
cyan, so the line list of the claim is not produced. -/
theorem export_lines_not_cyan :
    export_palette_lines "mypalette.gpl" 2 0 1 1 0 1 0 (some (0, 1, 1)) (1/2) ≠
      ["GIMP Palette", "Name: mypalette", "#", "255   0   0 red",
       "  0 255 255 cyan"] := by
  unfold export_palette_lines
  rw [export_colors_red_cyan]
  decide
